import Mathlib

/-!
Verification development for the GEE-API repository (src/app_py.py).

The script fetches Sentinel-2 imagery, computes NDVI, splits the area of
interest into sub-regions, downloads one GeoTIFF per sub-region and merges
the downloaded tiles into a single mosaic.  The definitions below are a
shallow embedding of that script: pure helpers become Lean functions, the
filesystem becomes an explicit association list of file entries, calls into
the external collaborators (the Earth Engine catalog, the requests HTTP
library, the rasterio merge routine) are modelled by explicit environment
functions and by a trace of resource events.
-/

namespace GeeApp

/-- Axis-aligned bounding box with rational coordinates. Models the bounding
geometry of an area of interest and of the sub-regions produced by the
splitter. -/
structure BBox where
  xmin : ℚ
  xmax : ℚ
  ymin : ℚ
  ymax : ℚ
  deriving DecidableEq

/-- Membership of a point in a (closed) bounding box. -/
def memBB (p : ℚ × ℚ) (c : BBox) : Prop :=
  c.xmin ≤ p.1 ∧ p.1 ≤ c.xmax ∧ c.ymin ≤ p.2 ∧ p.2 ≤ c.ymax

instance (p : ℚ × ℚ) (c : BBox) : Decidable (memBB p c) := by
  unfold memBB; infer_instance

/-- Model of an Earth Engine image handle: a list of band names together
with a per-band, per-pixel value (pixels are indexed by a natural number),
plus the list of clip geometries that have been applied to it. -/
structure EEImage where
  bandNames : List String
  pixelVal : String → Nat → ℚ
  clips : List BBox

/-- Model of the Earth Engine normalizedDifference band operation, per its
documented contract: the output is a single band named nd whose pixel value
is (b1 - b2) / (b1 + b2) computed from the two named input bands. -/
def normalizedDifference (img : EEImage) (b1 b2 : String) : EEImage :=
  { bandNames := ["nd"]
    pixelVal := fun _ p =>
      (img.pixelVal b1 p - img.pixelVal b2 p) / (img.pixelVal b1 p + img.pixelVal b2 p)
    clips := img.clips }

/-- Model of renaming the single band of an image. -/
def renameBand (img : EEImage) (nm : String) : EEImage :=
  { img with bandNames := [nm] }

/-- Embeds compute_ndvi (src/app_py.py lines 26-27):
image.normalizedDifference of bands B8 and B4, renamed to NDVI. -/
def compute_ndvi (image : EEImage) : EEImage :=
  renameBand (normalizedDifference image "B8" "B4") "NDVI"

/-- Embeds clip_image_to_aoi (src/app_py.py lines 30-31): image.clip(aoi),
modelled as recording the clip geometry on the handle. -/
def clip_image_to_aoi (image : EEImage) (aoi : BBox) : EEImage :=
  { image with clips := image.clips ++ [aoi] }

/-- Modelled from the spec: split_bounds is called by process
(src/app_py.py line 86) but is defined nowhere in the repository.  Spec
section 4.4 leaves the strategy free (a uniform grid is named as simplest)
and requires N sub-regions covering the bounding box, with N = 1 returning
the box unchanged.  We divide the bounding box into num_splits equal
vertical strips along the x axis. -/
def split_bounds (geometry : BBox) (num_splits : Nat) : List BBox :=
  let step := (geometry.xmax - geometry.xmin) / (num_splits : ℚ)
  (List.range num_splits).map fun (i : Nat) =>
    { xmin := geometry.xmin + (i : ℚ) * step
      xmax := geometry.xmin + ((i : ℚ) + 1) * step
      ymin := geometry.ymin
      ymax := geometry.ymax }

/-- Fixed export parameters passed to getDownloadURL. -/
structure ExportParams where
  scale : Nat
  crs : String
  filePerBand : Bool
  format : String
  deriving DecidableEq

/-- Embeds the literal parameter dictionary of src/app_py.py line 35:
scale 10, crs EPSG:4326, filePerBand False, format GeoTIFF. -/
def exportParams : ExportParams :=
  { scale := 10, crs := "EPSG:4326", filePerBand := false, format := "GeoTIFF" }

/-! Raster model (the rasterio view of a file). -/

/-- Affine geotransform (six rational coefficients). -/
structure Affine where
  a : ℚ
  b : ℚ
  c : ℚ
  d : ℚ
  e : ℚ
  f : ℚ
  deriving DecidableEq

/-- Raster metadata as exposed by rasterio: the five fields that
mosaic_tif_images updates explicitly, plus the remaining template fields
(crs, dtype, nodata) that the meta copy carries over unchanged. -/
structure RasterMeta where
  driver : String
  count : Nat
  width : Nat
  height : Nat
  transform : Affine
  crs : String
  dtype : String
  nodata : Option ℚ
  deriving DecidableEq

/-- A three-dimensional pixel array with shape (bands, rows, cols), the
shape rasterio.merge returns: shape 0 is the band axis, shape 1 the row
(height) axis, shape 2 the column (width) axis. -/
structure BandArray where
  bands : Nat
  rows : Nat
  cols : Nat
  px : Nat → Nat → Nat → ℚ

/-- An opened raster dataset: metadata plus pixel data. -/
structure Raster where
  meta : RasterMeta
  data : BandArray

/-- Content of a file on the local filesystem: either raw bytes (what the
downloader writes) or a raster (what rasterio reads and writes). -/
inductive FileData where
  | bytes (content : List Nat)
  | raster (r : Raster)

/-- One file: the directory it lives in, its file name, and its data.
The model keeps a flat two-level layout (directory, name), matching the
non-recursive directory scans of the script. -/
structure FileEntry where
  folder : String
  name : String
  data : FileData

/-- The local filesystem: at most one entry per (folder, name) key. -/
abbrev FS := List FileEntry

/-- True when the entry has the given directory and name. -/
def keyIs (e : FileEntry) (folder nm : String) : Bool :=
  decide (e.folder = folder ∧ e.name = nm)

/-- True when the filesystem holds a file with the given directory and
name. -/
def hasFile (fs : FS) (folder nm : String) : Bool :=
  fs.any fun e => keyIs e folder nm

/-- Look up the file with the given directory and name. -/
def getFile (fs : FS) (folder nm : String) : Option FileEntry :=
  fs.find? fun e => keyIs e folder nm

/-- Remove the entry with the given key, if present. -/
def eraseFile (fs : FS) (folder nm : String) : FS :=
  fs.filter fun e => !(keyIs e folder nm)

/-- Write a file: mode wb truncates an existing file with the same path and
creates the file otherwise. -/
def setFile (fs : FS) (folder nm : String) (d : FileData) : FS :=
  eraseFile fs folder nm ++ [⟨folder, nm, d⟩]

/-! Resource / remote-call event trace. -/

/-- Observable events of one pipeline run: the Earth Engine session calls,
the per-region export-URL requests, the HTTP GETs, and the acquisition and
release of local file handles (openDataset is rasterio.open of a source
tile; openWrite / closeWrite bracket a local file opened for writing in a
with block; closeDataset would be an explicit close of a source dataset). -/
inductive REvent where
  | auth
  | initEE
  | exportRequest (region : BBox) (params : ExportParams)
  | httpGet (url : String)
  | openDataset (folder nm : String)
  | closeDataset (folder nm : String)
  | openWrite (folder nm : String)
  | closeWrite (folder nm : String)
  deriving DecidableEq

/-- Embeds initialize_ee (src/app_py.py lines 10-12): ee.Authenticate()
followed by ee.Initialize(project).  Both are remote-session calls; the
embedding records them as events.  There is no guard around them: the
function performs both calls every time it is invoked. -/
def initialize_ee : List REvent :=
  [REvent.auth, REvent.initEE]

/-! Downloader. -/

/-- Outcome of requests.get on one URL: either a response with an HTTP
status code and a body, or a transport failure raising
requests.exceptions.RequestException. -/
inductive GetResult where
  | response (status : Nat) (body : List Nat)
  | transportError
  deriving DecidableEq

/-- Environment of the downloader: the HTTP transport, and whether opening
a given local path for writing raises OSError. -/
structure DlEnv where
  http : String → GetResult
  writeErr : String → String → Bool

/-- Result of a downloader run: the filesystem after the run, the event
trace, and whether the run completed normally (ok = false means an uncaught
exception propagated out of the loop). -/
structure DlResult where
  fs : FS
  events : List REvent
  ok : Bool

/-- Local file name used for slot i of the download loop: the literal
f-string image_i.tif of src/app_py.py line 46. -/
def imageName (i : Nat) : String :=
  "image_" ++ Nat.repr i ++ ".tif"

/-- Embeds the body of the for loop of download_images (src/app_py.py lines
41-50), carrying the enumeration index i.  Per slot: a falsy URL (None or
the empty string) is skipped; requests.get may raise a RequestException
(transportError), which the except clause catches and logs;
response.raise_for_status() raises HTTPError, a RequestException, exactly
when the status code lies in 400-599, also caught; then the response body
is written to image_i.tif inside a with block.  An OSError while opening
that file for writing is not a RequestException: it propagates and aborts
the rest of the loop (ok = false). -/
def downloadLoop (env : DlEnv) (output_folder : String) :
    List (Option String) → Nat → FS → DlResult
  | [], _, fs => ⟨fs, [], true⟩
  | url :: rest, i, fs =>
    match url with
    | none => downloadLoop env output_folder rest (i + 1) fs
    | some u =>
      if u = "" then downloadLoop env output_folder rest (i + 1) fs
      else
        match env.http u with
        | GetResult.transportError =>
          let r := downloadLoop env output_folder rest (i + 1) fs
          ⟨r.fs, REvent.httpGet u :: r.events, r.ok⟩
        | GetResult.response status body =>
          if 400 ≤ status ∧ status < 600 then
            let r := downloadLoop env output_folder rest (i + 1) fs
            ⟨r.fs, REvent.httpGet u :: r.events, r.ok⟩
          else if env.writeErr output_folder (imageName i) then
            ⟨fs, [REvent.httpGet u], false⟩
          else
            let fs2 := setFile fs output_folder (imageName i) (FileData.bytes body)
            let r := downloadLoop env output_folder rest (i + 1) fs2
            ⟨r.fs, REvent.httpGet u :: REvent.openWrite output_folder (imageName i) ::
               REvent.closeWrite output_folder (imageName i) :: r.events, r.ok⟩

/-- Embeds download_images (src/app_py.py lines 38-50).  os.makedirs with
exist_ok only ensures the directory exists and touches no file, so it has
no effect on the file map. -/
def download_images (env : DlEnv) (download_urls : List (Option String))
    (output_folder : String) (fs : FS) : DlResult :=
  downloadLoop env output_folder download_urls 0 fs

/-- Decides whether one slot of the download loop produces a file: the URL
is truthy, requests.get succeeds, and raise_for_status does not raise
(status outside 400-599). -/
def slotOk (env : DlEnv) : Option String → Bool
  | none => false
  | some u =>
    if u = "" then false
    else
      match env.http u with
      | GetResult.transportError => false
      | GetResult.response status _ => if 400 ≤ status ∧ status < 600 then false else true

/-- Body delivered for a slot (empty for slots that produce no file). -/
def bodyOf (env : DlEnv) : Option String → List Nat
  | none => []
  | some u =>
    match env.http u with
    | GetResult.response _ body => body
    | GetResult.transportError => []

/-- Filesystem effect of one loop slot when no write error occurs. -/
def stepFS (env : DlEnv) (folder : String) (i : Nat) (fs : FS) (u : Option String) : FS :=
  if slotOk env u then setFile fs folder (imageName i) (FileData.bytes (bodyOf env u)) else fs

/-! Mosaicker. -/

/-- Flat, non-recursive *.tif pattern: the name ends in .tif. -/
def isTif (nm : String) : Bool :=
  ".tif".data.isSuffixOf nm.data

/-- Embeds src/app_py.py lines 54-55: one glob per folder (flat *.tif
scan), then the list of lists is flattened. -/
def scanTifs (folders : List String) (fs : FS) : List FileEntry :=
  (folders.map fun folder => fs.filter fun e => e.folder == folder && isTif e.name).flatten

/-- Model of rasterio.open on a file in read mode: succeeds exactly when
the file holds raster data. -/
def openRaster : FileData → Option Raster
  | FileData.raster r => some r
  | FileData.bytes _ => none

/-- Embeds the list comprehension of src/app_py.py line 57: rasterio.open
on every scanned file, left to right.  Each successful open acquires a
dataset handle (an openDataset event); a failing open raises, so later
files are not opened.  No closeDataset event is ever produced: the script
never closes these datasets. -/
def openRasters : List FileEntry → List REvent × Option (List Raster)
  | [] => ([], some [])
  | e :: rest =>
    match openRaster e.data with
    | some r =>
      let tail := openRasters rest
      (REvent.openDataset e.folder e.name :: tail.1, tail.2.map fun l => r :: l)
    | none => ([], none)

/-- Result of a mosaicker run: filesystem, event trace, and whether the run
completed normally. -/
structure MosaicResult where
  fs : FS
  events : List REvent
  ok : Bool

/-- Embeds mosaic_tif_images (src/app_py.py lines 53-72).  The merge
routine of rasterio is an external collaborator and is passed in as mrg;
it returns the merged array and the output transform.  On an empty tile
list the call merge(src_files_to_mosaic) raises IndexError (it reads
datasets[0]), as would src_files_to_mosaic[0] on line 60, so the run fails
before anything is written.  Otherwise out_meta is a copy of the metadata
of the first source dataset updated with driver GTiff, count from shape 0,
width from shape 2, height from shape 1 and the merge transform, and the
merged array is written to the output file inside a with block.  The
output path is modelled as a (folder, name) pair. -/
def mosaic_tif_images (mrg : List Raster → BandArray × Affine)
    (folders : List String) (outFolder output_file : String) (fs : FS) : MosaicResult :=
  let tif_files := scanTifs folders fs
  let opened := openRasters tif_files
  match opened.2 with
  | none => ⟨fs, opened.1, false⟩
  | some [] => ⟨fs, opened.1, false⟩
  | some (first :: rest) =>
    let src_files_to_mosaic := first :: rest
    let merged := mrg src_files_to_mosaic
    let out_meta : RasterMeta :=
      { first.meta with
        driver := "GTiff"
        count := merged.1.bands
        width := merged.1.cols
        height := merged.1.rows
        transform := merged.2 }
    ⟨setFile fs outFolder output_file (FileData.raster ⟨out_meta, merged.1⟩),
     opened.1 ++ [REvent.openWrite outFolder output_file,
                  REvent.closeWrite outFolder output_file],
     true⟩

/-! Pipeline. -/

/-- Environment of one pipeline run: the remote catalog (the composite
image produced by the filtered, date-bounded, averaged collection; the
download URL the catalog issues for a clipped image over a region), the
HTTP transport, local write failures, and the raster merge routine. -/
structure PipelineEnv where
  composite : BBox → String → String → EEImage
  urlFor : EEImage → BBox → String
  http : String → GetResult
  writeErr : String → String → Bool
  mrg : List Raster → BandArray × Affine

/-- Embeds load_sentinel_image_collection (src/app_py.py lines 21-23): the
COPERNICUS/S2_HARMONIZED collection filtered by bounds and dates and
reduced by mean is computed remotely; the model takes it from the
environment. -/
def load_sentinel_image_collection (env : PipelineEnv) (aoi : BBox)
    (start_date end_date : String) : EEImage :=
  env.composite aoi start_date end_date

/-- Embeds get_download_url (src/app_py.py lines 34-35): the NDVI image is
clipped to the region and getDownloadURL is called with the fixed export
parameters.  The call is recorded as an exportRequest event carrying the
region and the parameters; the URL string comes from the environment. -/
def get_download_url (env : PipelineEnv) (ndvi_image : EEImage) (region : BBox) :
    REvent × String :=
  (REvent.exportRequest region exportParams,
   env.urlFor (clip_image_to_aoi ndvi_image region) region)

/-- Result of one process run: filesystem, event trace, whether the run
completed normally, and the returned string when it did. -/
structure ProcResult where
  fs : FS
  events : List REvent
  ok : Bool
  value : Option String

/-- Embeds process (src/app_py.py lines 75-96): initialize_ee, load the
composite, compute NDVI, clip to the AOI, split the AOI bounding geometry
into num_splits sub-regions, request one download URL per sub-region,
download all URLs into output_folder, and mosaic that folder into
mosaic_output.tif in the working directory (modelled as folder "."). -/
def process (env : PipelineEnv) (aoi : BBox) (num_splits : Nat)
    (start_date end_date : String) (output_folder : String) (fs : FS) : ProcResult :=
  let evInit := initialize_ee
  let image := load_sentinel_image_collection env aoi start_date end_date
  let ndvi := compute_ndvi image
  let ndvi_clipped := clip_image_to_aoi ndvi aoi
  let sub_regions := split_bounds aoi num_splits
  let urlcalls := sub_regions.map fun region => get_download_url env ndvi_clipped region
  let download_urls := urlcalls.map fun p => some p.2
  let dl := download_images ⟨env.http, env.writeErr⟩ download_urls output_folder fs
  if dl.ok then
    let mo := mosaic_tif_images env.mrg [output_folder] "." "mosaic_output.tif" dl.fs
    if mo.ok then
      ⟨mo.fs, evInit ++ urlcalls.map Prod.fst ++ dl.events ++ mo.events, true,
       some "Mosaic created successfully!"⟩
    else
      ⟨mo.fs, evInit ++ urlcalls.map Prod.fst ++ dl.events ++ mo.events, false, none⟩
  else
    ⟨dl.fs, evInit ++ urlcalls.map Prod.fst ++ dl.events, false, none⟩

/-- Export-URL requests appearing in a trace, with their parameters. -/
def exportEvents (evs : List REvent) : List (BBox × ExportParams) :=
  evs.filterMap fun e =>
    match e with
    | REvent.exportRequest r ps => some (r, ps)
    | _ => none

/-- Number of ee.Initialize calls appearing in a trace. -/
def initCount (evs : List REvent) : Nat :=
  evs.countP fun e =>
    match e with
    | REvent.initEE => true
    | _ => false

/-! Auxiliary definitions used by proofs and witnesses. -/

/-- Numeric value of a decimal digit character. -/
def digitVal (c : Char) : Nat :=
  c.toNat - 48

/-- Decode a big-endian list of decimal digit characters. -/
def decodeDigits (l : List Char) : Nat :=
  l.foldl (fun a c => 10 * a + digitVal c) 0

/-- Concrete two-band image with constant values B8 = 200 and B4 = 100. -/
def constImg : EEImage :=
  ⟨["B8", "B4"], fun b _ => if b = "B8" then 200 else 100, []⟩

/-- Identity-like geotransform fixture. -/
def affine0 : Affine := ⟨1, 0, 0, 0, 1, 0⟩

/-- Raster metadata fixture. -/
def meta0 : RasterMeta := ⟨"GTiff", 1, 2, 3, affine0, "EPSG:4326", "float32", none⟩

/-- Pixel-array fixture with one band, three rows, two columns. -/
def array0 : BandArray := ⟨1, 3, 2, fun _ _ _ => 0⟩

/-- Raster fixture. -/
def raster0 : Raster := ⟨meta0, array0⟩

/-- One downloaded tile on disk. -/
def tile0 : FileEntry := ⟨"downloaded_images", "image_0.tif", FileData.raster raster0⟩

/-- Constant stand-in for the external merge routine. -/
def mrg0 : List Raster → BandArray × Affine := fun _ => (array0, affine0)

/-- Transport that answers every GET with status 304 (not modified): not a
2xx status, yet not an HTTP error either. -/
def envC1 : DlEnv := ⟨fun _ => GetResult.response 304 [9], fun _ _ => false⟩

/-- Transport for the five-URL scenario: URLs b and d answer with status
500, the others with status 200. -/
def env5 : DlEnv :=
  ⟨fun u => if u = "b" ∨ u = "d" then GetResult.response 500 [0] else GetResult.response 200 [7],
   fun _ _ => false⟩

/-- The five download URLs of the scenario. -/
def urls5 : List (Option String) := [some "a", some "b", some "c", some "d", some "e"]

/-- Environment where every GET succeeds but opening the first tile file
for writing raises OSError. -/
def envOs : DlEnv :=
  ⟨fun _ => GetResult.response 200 [1],
   fun f nm => decide (f = "tiles" ∧ nm = imageName 0)⟩

/-- Environment where the first URL fails with a transport error and the
rest succeed. -/
def envTr : DlEnv :=
  ⟨fun u => if u = "a" then GetResult.transportError else GetResult.response 200 [2],
   fun _ _ => false⟩

/-- A tile left over from a previous run, not named image_i.tif. -/
def leftoverTile : FileEntry := ⟨"tiles", "old.tif", FileData.bytes [3]⟩

/-- Image handle fixture with no bands. -/
def eeImg0 : EEImage := ⟨[], fun _ _ => 0, []⟩

/-- Pipeline environment fixture: the catalog returns the empty composite
and issues empty URLs, the transport always fails, local writes succeed. -/
def envC7 : PipelineEnv :=
  { composite := fun _ _ _ => eeImg0
    urlFor := fun _ _ => ""
    http := fun _ => GetResult.transportError
    writeErr := fun _ _ => false
    mrg := mrg0 }

/-! Theorems. -/

/-- C5: compute_ndvi produces a single band named NDVI whose per-pixel
value is (NIR - RED) / (NIR + RED) computed from bands B8 (NIR) and B4
(RED), with no further normalization or clamping; for an input whose every
pixel has B8 = 200 and B4 = 100, every output pixel equals 1/3. -/
theorem compute_ndvi_spec (img : EEImage)
    (h : ∀ p, img.pixelVal "B8" p = 200 ∧ img.pixelVal "B4" p = 100) :
    (compute_ndvi img).bandNames = ["NDVI"]
    ∧ (∀ b p, (compute_ndvi img).pixelVal b p
        = (img.pixelVal "B8" p - img.pixelVal "B4" p)
          / (img.pixelVal "B8" p + img.pixelVal "B4" p))
    ∧ (∀ b p, (compute_ndvi img).pixelVal b p = 1 / 3) := by
  refine ⟨rfl, fun b p => rfl, fun b p => ?_⟩
  have h8 := (h p).1
  have h4 := (h p).2
  show (img.pixelVal "B8" p - img.pixelVal "B4" p)
      / (img.pixelVal "B8" p + img.pixelVal "B4" p) = 1 / 3
  rw [h8, h4]
  norm_num

/-- Witness for C5 at the constant image. -/
theorem compute_ndvi_spec_witness :
    (compute_ndvi constImg).bandNames = ["NDVI"]
    ∧ (compute_ndvi constImg).pixelVal "NDVI" 0 = 1 / 3 := by
  have h : ∀ p, constImg.pixelVal "B8" p = 200 ∧ constImg.pixelVal "B4" p = 100 := by
    intro p
    constructor <;> simp [constImg]
  exact ⟨(compute_ndvi_spec constImg h).1, (compute_ndvi_spec constImg h).2.2 "NDVI" 0⟩

/-- C3: for every N with N ≥ 1 and every nondegenerate AOI bounding box
(a polygonal AOI has positive extent), split_bounds returns exactly N
pairwise distinct sub-regions whose union covers the bounding box, the
count depending only on N, and for N = 1 it returns the box unchanged. -/
theorem split_bounds_spec (b : BBox) (n : Nat) (hn : 1 ≤ n) (hx : b.xmin < b.xmax) :
    (split_bounds b n).length = n
    ∧ List.Pairwise (fun c d => c ≠ d) (split_bounds b n)
    ∧ (∀ p : ℚ × ℚ, memBB p b → ∃ c ∈ split_bounds b n, memBB p c)
    ∧ split_bounds b 1 = [b] := by
  have hnQ : (0 : ℚ) < (n : ℚ) := by exact_mod_cast hn
  have hw : (0 : ℚ) < b.xmax - b.xmin := sub_pos.2 hx
  have hstep : (0 : ℚ) < (b.xmax - b.xmin) / (n : ℚ) := div_pos hw hnQ
  set step : ℚ := (b.xmax - b.xmin) / (n : ℚ) with hstepdef
  refine ⟨by simp [split_bounds], ?_, ?_, ?_⟩
  · rw [split_bounds, List.pairwise_map]
    refine (List.pairwise_lt_range n).imp ?_
    intro i j hij heq
    have h1 : b.xmin + (i : ℚ) * step = b.xmin + (j : ℚ) * step := congrArg BBox.xmin heq
    have h2 : (i : ℚ) * step = (j : ℚ) * step := by linarith
    have h3 : (i : ℚ) = (j : ℚ) := mul_right_cancel₀ (ne_of_gt hstep) h2
    exact absurd (Nat.cast_inj.mp h3) (Nat.ne_of_lt hij)
  · rintro ⟨x, y⟩ ⟨hx1, hx2, hy1, hy2⟩
    dsimp only at hx1 hx2 hy1 hy2
    have hq0 : (0 : ℤ) ≤ ⌊(x - b.xmin) / step⌋ :=
      Int.floor_nonneg.2 (div_nonneg (by linarith) hstep.le)
    set q : ℤ := ⌊(x - b.xmin) / step⌋ with hqdef
    set i : Nat := min (n - 1) q.toNat with hidef
    have hin : i < n := by
      have := Nat.min_le_left (n - 1) q.toNat
      omega
    have hbounds : b.xmin + (i : ℚ) * step ≤ x ∧ x ≤ b.xmin + ((i : ℚ) + 1) * step := by
      by_cases hcase : q.toNat ≤ n - 1
      · have hieq : i = q.toNat := Nat.min_eq_right hcase
        have hcast : ((i : Nat) : ℚ) = (q : ℚ) := by
          rw [hieq]
          exact_mod_cast congrArg Int.cast (Int.toNat_of_nonneg hq0)
        have hfl1 : (q : ℚ) ≤ (x - b.xmin) / step := Int.floor_le _
        have hfl2 : (x - b.xmin) / step < (q : ℚ) + 1 := Int.lt_floor_add_one _
        have hm1 : (q : ℚ) * step ≤ x - b.xmin := by
          rwa [← le_div_iff₀ hstep]
        have hm2 : x - b.xmin < ((q : ℚ) + 1) * step := by
          rwa [div_lt_iff₀ hstep] at hfl2
        rw [hcast]
        constructor <;> linarith
      · have hieq : i = n - 1 := Nat.min_eq_left (by omega)
        have hcast : ((i : Nat) : ℚ) = (n : ℚ) - 1 := by
          rw [hieq, Nat.cast_sub hn, Nat.cast_one]
        have hqn : (n : ℤ) ≤ q := by omega
        have hqnQ : (n : ℚ) ≤ (q : ℚ) := by exact_mod_cast hqn
        have hfl1 : (q : ℚ) ≤ (x - b.xmin) / step := Int.floor_le _
        have hm1 : (n : ℚ) * step ≤ x - b.xmin := by
          have h := le_trans hqnQ hfl1
          rwa [← le_div_iff₀ hstep]
        have hns : (n : ℚ) * step = b.xmax - b.xmin := by
          rw [hstepdef]
          field_simp
        have hxeq : x = b.xmax := le_antisymm hx2 (by linarith)
        have hexp1 : ((n : ℚ) - 1) * step = (n : ℚ) * step - step := by ring
        have hexp2 : ((n : ℚ) - 1 + 1) * step = (n : ℚ) * step := by ring
        rw [hcast, hxeq]
        constructor
        · rw [hexp1]
          linarith
        · rw [hexp2, hns]
          linarith
    exact ⟨_, List.mem_map.2 ⟨i, List.mem_range.2 hin, rfl⟩, hbounds.1, hbounds.2, hy1, hy2⟩
  · obtain ⟨x0, x1, y0, y1⟩ := b
    have h1 : List.range 1 = [0] := rfl
    simp only [split_bounds, h1, List.map_cons, List.map_nil, List.cons.injEq, and_true,
      BBox.mk.injEq, Nat.cast_zero, Nat.cast_one]
    norm_num

/-- Witness for C3 on the unit box with N = 3. -/
theorem split_bounds_spec_witness :
    (split_bounds ⟨0, 1, 0, 1⟩ 3).length = 3
    ∧ split_bounds ⟨0, 1, 0, 1⟩ 1 = [⟨0, 1, 0, 1⟩] :=
  ⟨(split_bounds_spec ⟨0, 1, 0, 1⟩ 3 (by norm_num) (by norm_num)).1,
   (split_bounds_spec ⟨0, 1, 0, 1⟩ 3 (by norm_num) (by norm_num)).2.2.2⟩

/-! Injectivity of the decimal tile numbering. -/

theorem digitVal_digitChar (d : Nat) (hd : d < 10) :
    digitVal (Nat.digitChar d) = d := by
  interval_cases d <;> rfl

theorem decodeDigits_append (x : List Char) (c : Char) :
    decodeDigits (x ++ [c]) = 10 * decodeDigits x + digitVal c := by
  simp [decodeDigits, List.foldl_append]

theorem toDigitsCore_acc (b : Nat) :
    ∀ (fuel n : Nat) (ds : List Char),
      Nat.toDigitsCore b fuel n ds = Nat.toDigitsCore b fuel n [] ++ ds := by
  intro fuel
  induction fuel with
  | zero => intro n ds; simp [Nat.toDigitsCore]
  | succ f ih =>
    intro n ds
    by_cases h : n / b = 0
    · simp [Nat.toDigitsCore, h]
    · simp only [Nat.toDigitsCore, h, if_false]
      rw [ih (n / b) (Nat.digitChar (n % b) :: ds), ih (n / b) [Nat.digitChar (n % b)]]
      simp

theorem decode_toDigitsCore :
    ∀ n fuel, n < fuel → decodeDigits (Nat.toDigitsCore 10 fuel n []) = n := by
  intro n
  induction n using Nat.strong_induction_on with
  | _ n ih =>
    intro fuel hf
    match fuel, hf with
    | f + 1, hf =>
      by_cases h : n / 10 = 0
      · have hn10 : n < 10 := by omega
        have hm : n % 10 = n := Nat.mod_eq_of_lt hn10
        simp [Nat.toDigitsCore, h, decodeDigits, hm, digitVal_digitChar n hn10]
      · have hdiv : n / 10 < n := Nat.div_lt_self (by omega) (by norm_num)
        have hfuel : n / 10 < f := by omega
        simp only [Nat.toDigitsCore, h, if_false]
        rw [toDigitsCore_acc 10 f (n / 10) [Nat.digitChar (n % 10)],
          decodeDigits_append, ih (n / 10) hdiv f hfuel,
          digitVal_digitChar (n % 10) (Nat.mod_lt n (by norm_num))]
        omega

theorem nat_repr_inj {m n : Nat} (h : Nat.repr m = Nat.repr n) : m = n := by
  have hd : Nat.toDigits 10 m = Nat.toDigits 10 n := congrArg String.data h
  have h1 := congrArg decodeDigits hd
  rwa [show Nat.toDigits 10 m = Nat.toDigitsCore 10 (m + 1) m [] from rfl,
    show Nat.toDigits 10 n = Nat.toDigitsCore 10 (n + 1) n [] from rfl,
    decode_toDigitsCore m (m + 1) (Nat.lt_succ_self m),
    decode_toDigitsCore n (n + 1) (Nat.lt_succ_self n)] at h1

theorem imageName_inj {i j : Nat} (h : imageName i = imageName j) : i = j := by
  have hd := congrArg String.data h
  simp only [imageName, String.data_append] at hd
  exact nat_repr_inj (String.ext (List.append_cancel_left (List.append_cancel_right hd)))

/-! Filesystem lemmas. -/

theorem keyIs_true_iff (e : FileEntry) (f nm : String) :
    keyIs e f nm = true ↔ e.folder = f ∧ e.name = nm := by
  simp [keyIs]

theorem keyIs_cross (e : FileEntry) (f nm f2 n2 : String) (hne : ¬(f = f2 ∧ nm = n2)) :
    (!(keyIs e f nm) && keyIs e f2 n2) = keyIs e f2 n2 := by
  cases hk : keyIs e f2 n2 with
  | false => simp
  | true =>
    have h2 := (keyIs_true_iff e f2 n2).1 hk
    have h1 : keyIs e f nm = false := by
      rw [Bool.eq_false_iff]
      intro hcontra
      have h3 := (keyIs_true_iff e f nm).1 hcontra
      exact hne ⟨h3.1.symm.trans h2.1, h3.2.symm.trans h2.2⟩
    simp [h1]

theorem hasFile_setFile_self (fs : FS) (f nm : String) (d : FileData) :
    hasFile (setFile fs f nm d) f nm = true := by
  simp [hasFile, setFile, List.any_append, keyIs]

theorem hasFile_setFile_ne (fs : FS) (f nm f2 n2 : String) (d : FileData)
    (hne : ¬(f = f2 ∧ nm = n2)) :
    hasFile (setFile fs f nm d) f2 n2 = hasFile fs f2 n2 := by
  simp only [hasFile, setFile, eraseFile, List.any_append, List.any_filter]
  have h1 : ∀ e : FileEntry, (!(keyIs e f nm) && keyIs e f2 n2) = keyIs e f2 n2 :=
    fun e => keyIs_cross e f nm f2 n2 hne
  simp only [h1]
  have h2 : keyIs ⟨f, nm, d⟩ f2 n2 = false := by
    rw [Bool.eq_false_iff]
    intro hcontra
    exact hne ((keyIs_true_iff _ _ _).1 hcontra)
  simp [h2]

theorem hasFile_setFile_mono (fs : FS) (f nm f2 n2 : String) (d : FileData)
    (h : hasFile fs f2 n2 = true) :
    hasFile (setFile fs f nm d) f2 n2 = true := by
  by_cases hne : f = f2 ∧ nm = n2
  · obtain ⟨rfl, rfl⟩ := hne
    exact hasFile_setFile_self fs f nm d
  · rw [hasFile_setFile_ne fs f nm f2 n2 d hne]
    exact h

theorem getFile_setFile_ne (fs : FS) (f nm f2 n2 : String) (d : FileData)
    (hne : ¬(f = f2 ∧ nm = n2)) :
    getFile (setFile fs f nm d) f2 n2 = getFile fs f2 n2 := by
  simp only [getFile, setFile, eraseFile, List.find?_append]
  have h2 : keyIs ⟨f, nm, d⟩ f2 n2 = false := by
    rw [Bool.eq_false_iff]
    intro hcontra
    exact hne ((keyIs_true_iff _ _ _).1 hcontra)
  have h3 : List.find? (fun e => keyIs e f2 n2) [(⟨f, nm, d⟩ : FileEntry)] = none := by
    simp [List.find?, h2]
  rw [h3]
  induction fs with
  | nil => rfl
  | cons e t ih =>
    by_cases h4 : keyIs e f nm = true
    · have h5 : keyIs e f2 n2 = false := by
        rw [Bool.eq_false_iff]
        intro hcontra
        have ha := (keyIs_true_iff e f nm).1 h4
        have hb := (keyIs_true_iff e f2 n2).1 hcontra
        exact hne ⟨ha.1.symm.trans hb.1, ha.2.symm.trans hb.2⟩
      simp only [List.filter_cons, h4, Bool.not_true, List.find?]
      rw [if_neg (by simp)]
      simp only [List.find?, h5]
      exact ih
    · have h4f : keyIs e f nm = false := Bool.eq_false_iff.2 h4
      simp only [List.filter_cons, h4f, Bool.not_false, if_pos rfl, List.find?]
      cases h6 : keyIs e f2 n2 with
      | true => rfl
      | false => exact ih

theorem mem_setFile_of_ne (fs : FS) (f nm : String) (d : FileData) (e : FileEntry)
    (he : e ∈ fs) (hne : ¬(e.folder = f ∧ e.name = nm)) :
    e ∈ setFile fs f nm d := by
  apply List.mem_append_left
  apply List.mem_filter.2
  refine ⟨he, ?_⟩
  simp only [Bool.not_eq_true']
  rw [Bool.eq_false_iff]
  intro hcontra
  exact hne ((keyIs_true_iff _ _ _).1 hcontra)

theorem eraseFile_of_not_hasFile (fs : FS) (f nm : String)
    (h : hasFile fs f nm = false) : eraseFile fs f nm = fs := by
  apply List.filter_eq_self.2
  intro e he
  simp only [Bool.not_eq_true']
  rw [Bool.eq_false_iff]
  intro hcontra
  have h2 : hasFile fs f nm = true := by
    apply List.any_eq_true.2
    exact ⟨e, he, hcontra⟩
  rw [h] at h2
  exact Bool.false_ne_true h2

theorem length_setFile_new (fs : FS) (f nm : String) (d : FileData)
    (h : hasFile fs f nm = false) :
    (setFile fs f nm d).length = fs.length + 1 := by
  simp [setFile, eraseFile_of_not_hasFile fs f nm h]

/-! Download-loop lemmas. -/

theorem downloadLoop_cons_step (env : DlEnv) (folder : String) (u : Option String)
    (rest : List (Option String)) (i : Nat) (fs : FS)
    (hW : env.writeErr folder (imageName i) = false) :
    (downloadLoop env folder (u :: rest) i fs).fs
      = (downloadLoop env folder rest (i + 1) (stepFS env folder i fs u)).fs
    ∧ (downloadLoop env folder (u :: rest) i fs).ok
      = (downloadLoop env folder rest (i + 1) (stepFS env folder i fs u)).ok := by
  cases u with
  | none => simp [downloadLoop, stepFS, slotOk]
  | some s =>
    by_cases hs : s = ""
    · subst hs
      simp [downloadLoop, stepFS, slotOk]
    · cases hh : env.http s with
      | transportError => simp [downloadLoop, stepFS, slotOk, hs, hh]
      | response status body =>
        by_cases hst : 400 ≤ status ∧ status < 600
        · simp [downloadLoop, stepFS, slotOk, hs, hh, hst]
        · simp [downloadLoop, stepFS, slotOk, hs, hh, hst, hW, bodyOf]

theorem downloadLoop_spec (env : DlEnv) (folder : String)
    (hW : ∀ nm, env.writeErr folder nm = false) :
    ∀ (urls : List (Option String)) (i : Nat) (fs : FS),
      (∀ j, i ≤ j → hasFile fs folder (imageName j) = false) →
      (downloadLoop env folder urls i fs).ok = true
      ∧ (downloadLoop env folder urls i fs).fs.length
          = fs.length + urls.countP (slotOk env)
      ∧ (∀ k, hasFile (downloadLoop env folder urls i fs).fs folder (imageName k)
           = if k < i then hasFile fs folder (imageName k)
             else slotOk env (urls.getD (k - i) none)) := by
  intro urls
  induction urls with
  | nil =>
    intro i fs hinv
    refine ⟨rfl, by simp [downloadLoop], ?_⟩
    intro k
    by_cases hk : k < i
    · simp [downloadLoop, hk]
    · simp [downloadLoop, hk, slotOk, hinv k (by omega)]
  | cons u rest ih =>
    intro i fs hinv
    have hstep := downloadLoop_cons_step env folder u rest i fs (hW _)
    have hinv2 : ∀ j, i + 1 ≤ j → hasFile (stepFS env folder i fs u) folder (imageName j) = false := by
      intro j hj
      unfold stepFS
      by_cases hslot : slotOk env u = true
      · rw [if_pos hslot, hasFile_setFile_ne]
        · exact hinv j (by omega)
        · rintro ⟨-, h2⟩
          have := imageName_inj h2
          omega
      · rw [if_neg hslot]
        exact hinv j (by omega)
    obtain ⟨hok, hlen, hhas⟩ := ih (i + 1) (stepFS env folder i fs u) hinv2
    refine ⟨hstep.2.trans hok, ?_, ?_⟩
    · rw [hstep.1, hlen, List.countP_cons]
      by_cases hslot : slotOk env u = true
      · rw [if_pos hslot]
        unfold stepFS
        rw [if_pos hslot, length_setFile_new fs folder (imageName i) _ (hinv i le_rfl)]
        omega
      · rw [if_neg hslot]
        unfold stepFS
        rw [if_neg hslot]
        omega
    · intro k
      rw [hstep.1]
      by_cases hk : k < i
      · rw [hhas k, if_pos (show k < i + 1 by omega), if_pos hk]
        unfold stepFS
        by_cases hslot : slotOk env u = true
        · rw [if_pos hslot, hasFile_setFile_ne]
          rintro ⟨-, h2⟩
          have := imageName_inj h2
          omega
        · rw [if_neg hslot]
      · by_cases hki : k = i
        · subst hki
          rw [hhas k, if_pos (by omega), if_neg hk, Nat.sub_self, List.getD_cons_zero]
          unfold stepFS
          by_cases hslot : slotOk env u = true
          · rw [if_pos hslot, hasFile_setFile_self, hslot]
          · rw [if_neg hslot, hinv k le_rfl]
            exact (Bool.eq_false_iff.2 hslot).symm
        · rw [hhas k, if_neg (by omega), if_neg hk,
            show k - i = (k - (i + 1)) + 1 by omega, List.getD_cons_succ]

theorem downloadLoop_preserves (env : DlEnv) (folder : String) :
    ∀ (urls : List (Option String)) (i : Nat) (fs : FS) (f2 n2 : String),
      (hasFile fs f2 n2 = true →
        hasFile (downloadLoop env folder urls i fs).fs f2 n2 = true)
      ∧ ((∀ j, ¬(folder = f2 ∧ imageName j = n2)) →
        getFile (downloadLoop env folder urls i fs).fs f2 n2 = getFile fs f2 n2) := by
  intro urls
  induction urls with
  | nil =>
    intro i fs f2 n2
    exact ⟨fun h => h, fun _ => rfl⟩
  | cons u rest ih =>
    intro i fs f2 n2
    cases u with
    | none =>
      simp only [downloadLoop]
      exact ih (i + 1) fs f2 n2
    | some s =>
      by_cases hs : s = ""
      · subst hs
        simp only [downloadLoop, if_pos rfl]
        exact ih (i + 1) fs f2 n2
      · cases hh : env.http s with
        | transportError =>
          simp only [downloadLoop, if_neg hs, hh]
          exact ih (i + 1) fs f2 n2
        | response status body =>
          by_cases hst : 400 ≤ status ∧ status < 600
          · simp only [downloadLoop, if_neg hs, hh, if_pos hst]
            exact ih (i + 1) fs f2 n2
          · by_cases hwr : env.writeErr folder (imageName i) = true
            · simp only [downloadLoop, if_neg hs, hh, if_neg hst, hwr, if_pos rfl]
              exact ⟨fun h => h, fun _ => rfl⟩
            · have hwrf : env.writeErr folder (imageName i) = false :=
                Bool.eq_false_iff.2 hwr
              have hstep := downloadLoop_cons_step env folder (some s) rest i fs hwrf
              have hslot : slotOk env (some s) = true := by
                simp [slotOk, hs, hh, hst]
              have hsfs : stepFS env folder i fs (some s)
                  = setFile fs folder (imageName i) (FileData.bytes (bodyOf env (some s))) := by
                unfold stepFS
                rw [if_pos hslot]
              constructor
              · intro h
                rw [hstep.1, hsfs]
                exact (ih (i + 1) _ f2 n2).1
                  (hasFile_setFile_mono fs folder (imageName i) f2 n2 _ h)
              · intro hg
                rw [hstep.1, hsfs, (ih (i + 1) _ f2 n2).2 hg,
                  getFile_setFile_ne fs folder (imageName i) f2 n2 _ (hg i)]

/-- C1 (amended): when local writes succeed and the destination directory
holds no tile files yet, download_images completes without raising, and
exactly those positions i whose URL is present (truthy) and whose GET
completes without a transport error and without an HTTP error status
(400-599) produce a file image_i.tif; all other positions produce no file
and do not abort the remaining downloads; the number of files created is
the number of such positions. -/
theorem download_images_files (env : DlEnv) (urls : List (Option String))
    (folder : String) (fs : FS)
    (hW : ∀ nm, env.writeErr folder nm = false)
    (h0 : ∀ i, hasFile fs folder (imageName i) = false) :
    (download_images env urls folder fs).ok = true
    ∧ (download_images env urls folder fs).fs.length
        = fs.length + urls.countP (slotOk env)
    ∧ (∀ i, hasFile (download_images env urls folder fs).fs folder (imageName i)
        = slotOk env (urls.getD i none)) := by
  have h := downloadLoop_spec env folder hW urls 0 fs (fun j _ => h0 j)
  refine ⟨h.1, h.2.1, fun i => ?_⟩
  have h2 := h.2.2 i
  rwa [if_neg (by omega), Nat.sub_zero] at h2

/-- Witness for C1 on the five-URL scenario: two URLs answer 500, so the
run completes with exactly three tile files, and slot 1 has no file. -/
theorem download_images_files_witness :
    (download_images env5 urls5 "tiles" []).ok = true
    ∧ (download_images env5 urls5 "tiles" []).fs.length = 3
    ∧ hasFile (download_images env5 urls5 "tiles" []).fs "tiles" (imageName 0) = true
    ∧ hasFile (download_images env5 urls5 "tiles" []).fs "tiles" (imageName 1) = false := by
  have h := download_images_files env5 urls5 "tiles" [] (fun nm => rfl) (fun i => rfl)
  exact ⟨h.1, h.2.1.trans (by decide), (h.2.2 0).trans (by decide),
    (h.2.2 1).trans (by decide)⟩

/-- Counterexample for C1 as stated: a GET answered with status 304 is not
a 2xx response, yet raise_for_status does not raise on it, so the slot
does produce a tile file. -/
theorem download_non2xx_creates_file :
    envC1.http "u" = GetResult.response 304 [9]
    ∧ ¬(200 ≤ 304 ∧ 304 < 300)
    ∧ (download_images envC1 [some "u"] "tiles" []).ok = true
    ∧ hasFile (download_images envC1 [some "u"] "tiles" []).fs "tiles" (imageName 0) = true := by
  refine ⟨rfl, by omega, ?_, ?_⟩ <;> decide

/-- C9: only RequestException is tolerated per URL.  With two URLs whose
GETs both succeed, an OSError while opening the first tile file propagates:
the run aborts (ok = false), no file is written, and the second URL is
never requested.  By contrast a transport error on the first URL is caught
and the loop continues to download the second slot. -/
theorem download_oserror_aborts :
    (download_images envOs [some "a", some "b"] "tiles" []).ok = false
    ∧ (download_images envOs [some "a", some "b"] "tiles" []).fs = []
    ∧ REvent.httpGet "b" ∉ (download_images envOs [some "a", some "b"] "tiles" []).events
    ∧ (download_images envTr [some "a", some "b"] "tiles" []).ok = true
    ∧ hasFile (download_images envTr [some "a", some "b"] "tiles" []).fs "tiles" (imageName 1) = true := by
  refine ⟨by decide, rfl, by decide, by decide, by decide⟩

/-! Mosaicker lemmas. -/

theorem getFile_setFile_self (fs : FS) (f nm : String) (d : FileData) :
    getFile (setFile fs f nm d) f nm = some ⟨f, nm, d⟩ := by
  simp only [getFile, setFile, List.find?_append]
  have h1 : List.find? (fun e => keyIs e f nm) (eraseFile fs f nm) = none := by
    rw [List.find?_eq_none]
    intro e he
    have h2 := (List.mem_filter.1 he).2
    simp only [Bool.not_eq_true'] at h2
    simp [h2]
  rw [h1]
  simp [List.find?, keyIs]

theorem mosaic_fs_shape (mrg : List Raster → BandArray × Affine) (folders : List String)
    (oF oN : String) (fs : FS) :
    (mosaic_tif_images mrg folders oF oN fs).fs = fs
    ∨ ∃ d, (mosaic_tif_images mrg folders oF oN fs).fs = setFile fs oF oN d := by
  simp only [mosaic_tif_images]
  split
  · left; rfl
  · left; rfl
  · right; exact ⟨_, rfl⟩

theorem openRasters_head (L : List FileEntry) (r : Raster) (rs : List Raster)
    (h : (openRasters L).2 = some (r :: rs)) :
    ∃ e es, L = e :: es ∧ e.data = FileData.raster r := by
  cases L with
  | nil => simp [openRasters] at h
  | cons e es =>
    cases hd : e.data with
    | bytes c => simp [openRasters, openRaster, hd] at h
    | raster r2 =>
      refine ⟨e, es, rfl, ?_⟩
      simp only [openRasters, openRaster, hd] at h
      cases h2 : (openRasters es).2 with
      | none => rw [h2] at h; simp at h
      | some l =>
        rw [h2] at h
        simp only [Option.map_some', Option.some.injEq, List.cons.injEq] at h
        rw [hd, h.1]

/-- C10: the downloader never deletes an existing file (it only adds tile
files, truncating only a file with the very same name), the mosaicker
rewrites only its output file, and the flat *.tif scan picks up every .tif
file present in the scanned folders, so a tile left over from a previous
run is part of the merge input of the next run. -/
theorem tiles_persist (env : DlEnv) (urls : List (Option String)) (folder : String)
    (fs : FS) (mrg : List Raster → BandArray × Affine) (folders : List String)
    (oF oN : String) (e : FileEntry) (he : e ∈ fs) :
    hasFile (download_images env urls folder fs).fs e.folder e.name = true
    ∧ ((e.folder = folder → ∀ j, e.name ≠ imageName j) →
        getFile (download_images env urls folder fs).fs e.folder e.name
          = getFile fs e.folder e.name)
    ∧ (e.folder ∈ folders → isTif e.name = true → e ∈ scanTifs folders fs)
    ∧ hasFile (mosaic_tif_images mrg folders oF oN fs).fs e.folder e.name = true
    ∧ (¬(e.folder = oF ∧ e.name = oN) →
        getFile (mosaic_tif_images mrg folders oF oN fs).fs e.folder e.name
          = getFile fs e.folder e.name) := by
  have hhas : hasFile fs e.folder e.name = true :=
    List.any_eq_true.2 ⟨e, he, by simp [keyIs]⟩
  refine ⟨?_, ?_, ?_, ?_, ?_⟩
  · exact (downloadLoop_preserves env folder urls 0 fs e.folder e.name).1 hhas
  · intro hg
    refine (downloadLoop_preserves env folder urls 0 fs e.folder e.name).2 ?_
    rintro j ⟨h1, h2⟩
    exact hg h1.symm j h2.symm
  · intro hfolders htif
    refine List.mem_flatten.2 ⟨fs.filter fun x => x.folder == e.folder && isTif x.name,
      List.mem_map.2 ⟨e.folder, hfolders, rfl⟩, List.mem_filter.2 ⟨he, ?_⟩⟩
    simp [htif]
  · rcases mosaic_fs_shape mrg folders oF oN fs with hsh | ⟨d, hsh⟩
    · rw [hsh]; exact hhas
    · rw [hsh]; exact hasFile_setFile_mono fs oF oN e.folder e.name d hhas
  · intro hne
    rcases mosaic_fs_shape mrg folders oF oN fs with hsh | ⟨d, hsh⟩
    · rw [hsh]
    · rw [hsh]
      refine getFile_setFile_ne fs oF oN e.folder e.name d ?_
      rintro ⟨h1, h2⟩
      exact hne ⟨h1.symm, h2.symm⟩

/-- Witness for C10: a leftover tile old.tif survives a download run into a
different folder and a mosaic run, and appears in the *.tif scan. -/
theorem tiles_persist_witness :
    hasFile (download_images envC1 [some "u"] "dl" [leftoverTile]).fs "tiles" "old.tif" = true
    ∧ getFile (download_images envC1 [some "u"] "dl" [leftoverTile]).fs "tiles" "old.tif"
        = getFile [leftoverTile] "tiles" "old.tif"
    ∧ leftoverTile ∈ scanTifs ["tiles"] [leftoverTile]
    ∧ getFile (mosaic_tif_images mrg0 ["tiles"] "." "mosaic_output.tif" [leftoverTile]).fs
        "tiles" "old.tif" = getFile [leftoverTile] "tiles" "old.tif" := by
  have h := tiles_persist envC1 [some "u"] "dl" [leftoverTile] mrg0 ["tiles"] "."
    "mosaic_output.tif" leftoverTile (List.mem_singleton.2 rfl)
  exact ⟨h.1, h.2.1 (fun hf => absurd hf (by decide)), h.2.2.1 (by decide) rfl,
    h.2.2.2.2 (by decide)⟩

/-- C2: when the scanned folders contain no .tif file, mosaic_tif_images
fails (the empty dataset list raises before anything is written) and the
filesystem, in particular any existing output file, is left untouched. -/
theorem mosaic_empty_fails (mrg : List Raster → BandArray × Affine)
    (folders : List String) (oF oN : String) (fs : FS)
    (h : scanTifs folders fs = []) :
    (mosaic_tif_images mrg folders oF oN fs).ok = false
    ∧ (mosaic_tif_images mrg folders oF oN fs).fs = fs := by
  unfold mosaic_tif_images
  rw [h]
  exact ⟨rfl, rfl⟩

/-- Witness for C2 on the empty filesystem. -/
theorem mosaic_empty_fails_witness :
    (mosaic_tif_images mrg0 ["downloaded_images"] "." "mosaic_output.tif" []).ok = false
    ∧ (mosaic_tif_images mrg0 ["downloaded_images"] "." "mosaic_output.tif" []).fs = [] :=
  mosaic_empty_fails mrg0 ["downloaded_images"] "." "mosaic_output.tif" [] rfl

/-- C6: on a non-empty tile list the output raster takes driver GTiff,
band count from shape 0 of the merged array, width from shape 2, height
from shape 1 and the transform from the merge result, while crs, dtype and
nodata are copied unchanged from the metadata of the first scanned tile. -/
theorem mosaic_meta_spec (mrg : List Raster → BandArray × Affine) (folders : List String)
    (oF oN : String) (fs : FS) (r : Raster) (rs : List Raster)
    (h : (openRasters (scanTifs folders fs)).2 = some (r :: rs)) :
    (mosaic_tif_images mrg folders oF oN fs).ok = true
    ∧ (∃ e es, scanTifs folders fs = e :: es ∧ e.data = FileData.raster r)
    ∧ getFile (mosaic_tif_images mrg folders oF oN fs).fs oF oN
        = some ⟨oF, oN, FileData.raster
            ⟨{ driver := "GTiff"
               count := (mrg (r :: rs)).1.bands
               width := (mrg (r :: rs)).1.cols
               height := (mrg (r :: rs)).1.rows
               transform := (mrg (r :: rs)).2
               crs := r.meta.crs
               dtype := r.meta.dtype
               nodata := r.meta.nodata },
             (mrg (r :: rs)).1⟩⟩ := by
  refine ⟨?_, openRasters_head _ r rs h, ?_⟩
  · simp only [mosaic_tif_images]
    rw [h]
  · simp only [mosaic_tif_images]
    rw [h]
    exact getFile_setFile_self fs oF oN _

/-- Witness for C6 on one concrete tile and a constant merge routine. -/
theorem mosaic_meta_spec_witness :
    (mosaic_tif_images mrg0 ["downloaded_images"] "." "mosaic_output.tif" [tile0]).ok = true
    ∧ getFile (mosaic_tif_images mrg0 ["downloaded_images"] "." "mosaic_output.tif" [tile0]).fs
        "." "mosaic_output.tif"
        = some ⟨".", "mosaic_output.tif", FileData.raster
            ⟨{ driver := "GTiff", count := array0.bands, width := array0.cols,
               height := array0.rows, transform := affine0, crs := meta0.crs,
               dtype := meta0.dtype, nodata := meta0.nodata }, array0⟩⟩ := by
  have h := mosaic_meta_spec mrg0 ["downloaded_images"] "." "mosaic_output.tif" [tile0]
    raster0 [] rfl
  exact ⟨h.1, h.2.2⟩

/-! Event-trace lemmas. -/

theorem downloadLoop_events_shape (env : DlEnv) (folder : String) :
    ∀ (urls : List (Option String)) (i : Nat) (fs : FS) (e : REvent),
      e ∈ (downloadLoop env folder urls i fs).events →
      (∃ u, e = REvent.httpGet u)
      ∨ (∃ f nm, e = REvent.openWrite f nm)
      ∨ (∃ f nm, e = REvent.closeWrite f nm) := by
  intro urls
  induction urls with
  | nil =>
    intro i fs e he
    simp [downloadLoop] at he
  | cons u rest ih =>
    intro i fs e he
    cases u with
    | none => exact ih (i + 1) fs e he
    | some s =>
      by_cases hs : s = ""
      · subst hs
        exact ih (i + 1) fs e he
      · cases hh : env.http s with
        | transportError =>
          simp only [downloadLoop, if_neg hs, hh] at he
          rcases List.mem_cons.1 he with rfl | h2
          · exact Or.inl ⟨s, rfl⟩
          · exact ih (i + 1) fs e h2
        | response status body =>
          by_cases hst : 400 ≤ status ∧ status < 600
          · simp only [downloadLoop, if_neg hs, hh, if_pos hst] at he
            rcases List.mem_cons.1 he with rfl | h2
            · exact Or.inl ⟨s, rfl⟩
            · exact ih (i + 1) fs e h2
          · by_cases hwr : env.writeErr folder (imageName i) = true
            · simp only [downloadLoop, if_neg hs, hh, if_neg hst, hwr, if_true,
                List.mem_singleton] at he
              subst he
              exact Or.inl ⟨s, rfl⟩
            · have hwrf : env.writeErr folder (imageName i) = false :=
                Bool.eq_false_iff.2 hwr
              simp only [downloadLoop, if_neg hs, hh, if_neg hst, hwrf, Bool.false_eq_true,
                if_false, List.mem_cons] at he
              rcases he with rfl | rfl | rfl | h2
              · exact Or.inl ⟨s, rfl⟩
              · exact Or.inr (Or.inl ⟨folder, imageName i, rfl⟩)
              · exact Or.inr (Or.inr ⟨folder, imageName i, rfl⟩)
              · exact ih (i + 1) _ e h2

theorem openRasters_events (L : List FileEntry) :
    ∀ e, e ∈ (openRasters L).1 → ∃ f nm, e = REvent.openDataset f nm := by
  induction L with
  | nil =>
    intro e he
    simp [openRasters] at he
  | cons x xs ih =>
    intro e he
    cases hd : x.data with
    | raster r =>
      simp only [openRasters, openRaster, hd, List.mem_cons] at he
      rcases he with rfl | h2
      · exact ⟨x.folder, x.name, rfl⟩
      · exact ih e h2
    | bytes c =>
      simp [openRasters, openRaster, hd] at he

theorem mosaic_events_shape (mrg : List Raster → BandArray × Affine)
    (folders : List String) (oF oN : String) (fs : FS) :
    ∀ e, e ∈ (mosaic_tif_images mrg folders oF oN fs).events →
      (∃ f nm, e = REvent.openDataset f nm)
      ∨ (∃ f nm, e = REvent.openWrite f nm)
      ∨ (∃ f nm, e = REvent.closeWrite f nm) := by
  intro e he
  simp only [mosaic_tif_images] at he
  split at he
  · exact Or.inl (openRasters_events _ e he)
  · exact Or.inl (openRasters_events _ e he)
  · rw [List.mem_append] at he
    rcases he with h2 | h2
    · exact Or.inl (openRasters_events _ e h2)
    · rcases List.mem_cons.1 h2 with rfl | h3
      · exact Or.inr (Or.inl ⟨oF, oN, rfl⟩)
      · rcases List.mem_singleton.1 h3 with rfl
        exact Or.inr (Or.inr ⟨oF, oN, rfl⟩)

theorem exportEvents_map (ps : ExportParams) (l : List BBox) :
    exportEvents (l.map fun r => REvent.exportRequest r ps) = l.map fun r => (r, ps) := by
  induction l with
  | nil => rfl
  | cons x xs ih => simp [exportEvents, List.filterMap_cons] at ih ⊢; exact ih

/-- Decomposition of the trace of one process run: the session calls, then
one export request per sub-region, then only transport and local-file
events. -/
theorem process_events_decomp (env : PipelineEnv) (aoi : BBox) (n : Nat)
    (sd ed folder : String) (fs : FS) :
    ∃ tail, (process env aoi n sd ed folder fs).events
      = initialize_ee
        ++ ((split_bounds aoi n).map fun region => REvent.exportRequest region exportParams)
        ++ tail
      ∧ ∀ e ∈ tail, (∃ u, e = REvent.httpGet u)
          ∨ (∃ f nm, e = REvent.openDataset f nm)
          ∨ (∃ f nm, e = REvent.openWrite f nm)
          ∨ (∃ f nm, e = REvent.closeWrite f nm) := by
  have hmap : ∀ (img : EEImage),
      ((split_bounds aoi n).map fun region => get_download_url env img region).map Prod.fst
        = (split_bounds aoi n).map fun region => REvent.exportRequest region exportParams := by
    intro img
    simp [get_download_url]
  simp only [process]
  set img := clip_image_to_aoi (compute_ndvi (load_sentinel_image_collection env aoi sd ed)) aoi
    with himg
  set urlcalls := (split_bounds aoi n).map fun region => get_download_url env img region
    with hcalls
  set dl := download_images ⟨env.http, env.writeErr⟩ (urlcalls.map fun p => some p.2) folder fs
    with hdl
  set mo := mosaic_tif_images env.mrg [folder] "." "mosaic_output.tif" dl.fs with hmo
  have hdlshape : ∀ e ∈ dl.events,
      (∃ u, e = REvent.httpGet u)
      ∨ (∃ f nm, e = REvent.openDataset f nm)
      ∨ (∃ f nm, e = REvent.openWrite f nm)
      ∨ (∃ f nm, e = REvent.closeWrite f nm) := by
    intro e he
    rw [hdl] at he
    rcases downloadLoop_events_shape ⟨env.http, env.writeErr⟩ folder
        (urlcalls.map fun (p : REvent × String) => some p.2) 0 fs e he with h3 | h3 | h3
    · exact Or.inl h3
    · exact Or.inr (Or.inr (Or.inl h3))
    · exact Or.inr (Or.inr (Or.inr h3))
  have hmoshape : ∀ e ∈ mo.events,
      (∃ u, e = REvent.httpGet u)
      ∨ (∃ f nm, e = REvent.openDataset f nm)
      ∨ (∃ f nm, e = REvent.openWrite f nm)
      ∨ (∃ f nm, e = REvent.closeWrite f nm) := by
    intro e he
    rw [hmo] at he
    rcases mosaic_events_shape env.mrg [folder] "." "mosaic_output.tif" dl.fs e he
        with h3 | h3 | h3
    · exact Or.inr (Or.inl h3)
    · exact Or.inr (Or.inr (Or.inl h3))
    · exact Or.inr (Or.inr (Or.inr h3))
  by_cases h1 : dl.ok = true
  · rw [if_pos h1]
    by_cases h2 : mo.ok = true
    · rw [if_pos h2]
      refine ⟨dl.events ++ mo.events, ?_, ?_⟩
      · change initialize_ee ++ urlcalls.map Prod.fst ++ dl.events ++ mo.events = _
        rw [hcalls, hmap img]
        exact List.append_assoc _ _ _
      · intro e he
        rcases List.mem_append.1 he with h3 | h3
        · exact hdlshape e h3
        · exact hmoshape e h3
    · rw [if_neg h2]
      refine ⟨dl.events ++ mo.events, ?_, ?_⟩
      · change initialize_ee ++ urlcalls.map Prod.fst ++ dl.events ++ mo.events = _
        rw [hcalls, hmap img]
        exact List.append_assoc _ _ _
      · intro e he
        rcases List.mem_append.1 he with h3 | h3
        · exact hdlshape e h3
        · exact hmoshape e h3
  · rw [if_neg h1]
    refine ⟨dl.events, ?_, ?_⟩
    · change initialize_ee ++ urlcalls.map Prod.fst ++ dl.events = _
      rw [hcalls, hmap img]
    · intro e he
      exact hdlshape e he

/-- C4: every process run issues exactly one export-URL request per
sub-region, in order, each carrying the fixed export parameters (scale 10,
crs EPSG:4326, filePerBand false, format GeoTIFF); with split count N the
run issues exactly N export-URL requests. -/
theorem process_export_requests (env : PipelineEnv) (aoi : BBox) (n : Nat)
    (sd ed folder : String) (fs : FS) :
    exportEvents (process env aoi n sd ed folder fs).events
      = (split_bounds aoi n).map (fun r => (r, exportParams))
    ∧ (exportEvents (process env aoi n sd ed folder fs).events).length = n := by
  obtain ⟨tail, hdec, htail⟩ := process_events_decomp env aoi n sd ed folder fs
  have htailnil : exportEvents tail = [] := by
    rw [exportEvents, List.filterMap_eq_nil_iff]
    intro e he
    rcases htail e he with ⟨u, rfl⟩ | ⟨f, nm, rfl⟩ | ⟨f, nm, rfl⟩ | ⟨f, nm, rfl⟩ <;> rfl
  have hmain : exportEvents (process env aoi n sd ed folder fs).events
      = (split_bounds aoi n).map (fun r => (r, exportParams)) := by
    rw [hdec, exportEvents, List.filterMap_append, List.filterMap_append]
    show exportEvents initialize_ee ++ exportEvents _ ++ exportEvents tail = _
    rw [htailnil, exportEvents_map]
    simp [exportEvents, initialize_ee]
  exact ⟨hmain, by rw [hmain]; simp [split_bounds]⟩

/-- C7 (amended): the remote-service session is initialized once per
pipeline invocation, not once per process: every call of process performs
ee.Initialize (exactly one initEE event appears in its trace), so a second
invocation in the same process initializes again. -/
theorem process_initializes_each_run (env : PipelineEnv) (aoi : BBox) (n : Nat)
    (sd ed folder : String) (fs : FS) :
    initCount (process env aoi n sd ed folder fs).events = 1 := by
  obtain ⟨tail, hdec, htail⟩ := process_events_decomp env aoi n sd ed folder fs
  rw [hdec, initCount, List.countP_append, List.countP_append]
  have h1 : List.countP (fun e => match e with | REvent.initEE => true | _ => false)
      initialize_ee = 1 := rfl
  have h2 : List.countP (fun e => match e with | REvent.initEE => true | _ => false)
      ((split_bounds aoi n).map fun region => REvent.exportRequest region exportParams)
      = 0 := by
    rw [List.countP_eq_zero]
    intro e he
    rcases List.mem_map.1 he with ⟨r, -, rfl⟩
    simp
  have h3 : List.countP (fun e => match e with | REvent.initEE => true | _ => false)
      tail = 0 := by
    rw [List.countP_eq_zero]
    intro e he
    rcases htail e he with ⟨u, rfl⟩ | ⟨f, nm, rfl⟩ | ⟨f, nm, rfl⟩ | ⟨f, nm, rfl⟩ <;> simp
  rw [h1, h2, h3]

/-- Counterexample for C7 as stated: running process twice in the same
session, the second invocation also performs the initialization (its trace
holds an ee.Initialize event), instead of skipping it. -/
theorem process_reinitializes :
    initCount (process envC7 ⟨0, 1, 0, 1⟩ 1 "2023-01-01" "2023-01-31"
      "downloaded_images" []).events = 1
    ∧ initCount (process envC7 ⟨0, 1, 0, 1⟩ 1 "2023-01-01" "2023-01-31"
        "downloaded_images"
        (process envC7 ⟨0, 1, 0, 1⟩ 1 "2023-01-01" "2023-01-31"
          "downloaded_images" []).fs).events = 1 := by
  constructor <;> rfl

/-- C8: the with blocks of the script do close the files it writes (the
downloaded tile and the mosaic output), but the source datasets opened by
rasterio.open in the mosaicker are never closed: on a successful run over
one tile the trace holds an openDataset event with no matching
closeDataset event, while the downloader trace holds a matching
openWrite / closeWrite pair for the tile it writes. -/
theorem mosaic_never_closes_datasets :
    (mosaic_tif_images mrg0 ["downloaded_images"] "." "mosaic_output.tif" [tile0]).ok = true
    ∧ REvent.openDataset "downloaded_images" "image_0.tif"
        ∈ (mosaic_tif_images mrg0 ["downloaded_images"] "." "mosaic_output.tif" [tile0]).events
    ∧ (∀ f nm, REvent.closeDataset f nm
        ∉ (mosaic_tif_images mrg0 ["downloaded_images"] "." "mosaic_output.tif" [tile0]).events)
    ∧ REvent.openWrite "tiles" (imageName 0)
        ∈ (download_images envC1 [some "u"] "tiles" []).events
    ∧ REvent.closeWrite "tiles" (imageName 0)
        ∈ (download_images envC1 [some "u"] "tiles" []).events := by
  have hev : (mosaic_tif_images mrg0 ["downloaded_images"] "." "mosaic_output.tif" [tile0]).events
      = [REvent.openDataset "downloaded_images" "image_0.tif",
         REvent.openWrite "." "mosaic_output.tif",
         REvent.closeWrite "." "mosaic_output.tif"] := rfl
  refine ⟨rfl, ?_, ?_, by decide, by decide⟩
  · rw [hev]
    exact List.mem_cons_self _ _
  · intro f nm
    rw [hev]
    simp

end GeeApp
